import Mathlib

/-!
# Verification of the Polymarket copy-trading bot pipeline

A shallow embedding of the trade-replication pipeline of
`Gabagool2-2/polymarket-Copy-trading-bot`, together with proofs of the
pipeline's stated properties.  Monetary amounts (JS `number`s used for USD
notional and prices) are modelled as rationals; MongoDB collections are
modelled as lists of documents; every external call (HTTP fetch, order
gateway, balance query) is an oracle parameter whose outcome is an
`Except String _` value, mirroring a JS promise that either resolves or
rejects.
-/

namespace CopyBot

/-- A trade observed on a tracked trader, enriched with the trader address
(`TradeWithUser` in `src/services/TradeAggregator.ts`).  `id` models the
Mongo `_id` of the activity document. -/
structure TradeWithUser where
  id : Nat
  userAddress : String
  conditionId : String
  asset : String
  side : String
  usdcSize : Rat
  price : Rat
  deriving Repr, DecidableEq

/-- A stored user-activity document (`userHistory` model): the trade data
plus the processing flags `bot` and `botExcutedTime` used by the pipeline,
and the activity `type` filtered on by `readTempTrades`. -/
structure ActivityDoc where
  trade : TradeWithUser
  type : String
  bot : Bool
  botExcutedTime : Int
  deriving Repr, DecidableEq

/-- The Polymarket minimum order size used as the aggregation threshold
(`TRADE_AGGREGATION_MIN_TOTAL_USD = 1.0` in `tradeExecutor.ts` and
`TradeAggregator.ts`). -/
def TRADE_AGGREGATION_MIN_TOTAL_USD : Rat := 1

/-- An in-memory aggregation group (`AggregatedTrade` in
`TradeAggregator.ts`): same-key small trades merged into one batch.
Timestamps are `Date.now()` milliseconds, modelled as integers. -/
structure AggregatedTrade where
  userAddress : String
  conditionId : String
  asset : String
  side : String
  trades : List TradeWithUser
  totalUsdcSize : Rat
  averagePrice : Rat
  firstTradeTime : Int
  lastTradeTime : Int
  deriving Repr, DecidableEq

/-- `getAggregationKey` from `TradeAggregator.ts`:
`userAddress:conditionId:asset:side`. -/
def getAggregationKey (t : TradeWithUser) : String :=
  t.userAddress ++ ":" ++ t.conditionId ++ ":" ++ t.asset ++ ":" ++ t.side

/-- The aggregation buffer: a JS `Map` keyed by the aggregation key,
modelled as an insertion-ordered association list. -/
abbrev AggBuffer := List (String × AggregatedTrade)

/-- Total notional value `sum + t.usdcSize * t.price` accumulated over a
constituent list (the `reduce` inside `addToAggregationBuffer`). -/
def totalValueOf (ts : List TradeWithUser) : Rat :=
  ts.foldl (fun sum t => sum + t.usdcSize * t.price) 0

/-- Sum of constituent notionals, the reference value for
`totalUsdcSize`. -/
def sumSizes (ts : List TradeWithUser) : Rat :=
  ts.foldl (fun sum t => sum + t.usdcSize) 0

/-- `addToAggregationBuffer` from `TradeAggregator.ts`: if a group with the
trade's key exists, append the trade, add its notional to the running
total and recompute the weighted average price over *all* constituents;
otherwise seed a fresh group with this trade.  A JS `Map.set` on an
existing key keeps its position; a new key is appended. -/
def addToAggregationBuffer (now : Int) (trade : TradeWithUser) (buffer : AggBuffer) :
    AggBuffer :=
  let key := getAggregationKey trade
  match buffer.find? (fun kv => kv.1 == key) with
  | some _ =>
      buffer.map (fun kv =>
        if kv.1 == key then
          let existing := kv.2
          let newTrades := existing.trades ++ [trade]
          let newTotal := existing.totalUsdcSize + trade.usdcSize
          (kv.1, { existing with
            trades := newTrades
            totalUsdcSize := newTotal
            averagePrice := totalValueOf newTrades / newTotal
            lastTradeTime := now })
        else kv)
  | none =>
      buffer ++ [(key,
        { userAddress := trade.userAddress
          conditionId := trade.conditionId
          asset := trade.asset
          side := trade.side
          trades := [trade]
          totalUsdcSize := trade.usdcSize
          averagePrice := trade.price
          firstTradeTime := now
          lastTradeTime := now })]

/-- Well-formedness of an aggregation group: its cached total is the sum of
its constituents' notionals, its cached average price is the volume-weighted
average over all constituents, and every constituent has positive notional
(trades are real dollar amounts; positivity is what makes the weighted
average well defined for a singleton group). -/
def groupWf (g : AggregatedTrade) : Prop :=
  g.totalUsdcSize = sumSizes g.trades ∧
  g.averagePrice = totalValueOf g.trades / sumSizes g.trades ∧
  (∀ t ∈ g.trades, 0 < t.usdcSize)

/-- All groups in a buffer are well-formed. -/
def bufferWf (buffer : AggBuffer) : Prop :=
  ∀ kv ∈ buffer, groupWf kv.2

/-! ## Execution ledger (`copyExecution` model) -/

/-- Outcome of a copy attempt, the `status` enum of the
`copy_executions` schema (`enum: ['success', 'failed']`). -/
inductive ExecStatus where
  | success
  | failed
  deriving Repr, DecidableEq

/-- A `CopyExecution` document: durable fact that a follower attempted to
copy a trader's activity, with its outcome and the `preview` (dry-run)
flag. -/
structure ExecRecord where
  traderAddress : String
  activityId : Nat
  followerWallet : String
  status : ExecStatus
  preview : Bool
  deriving Repr, DecidableEq

/-- The uniqueness key of the `copy_executions` collection:
`(traderAddress, activityId, followerWallet)`, declared as a unique index
in the schema. -/
def ExecRecord.key (r : ExecRecord) : String × Nat × String :=
  (r.traderAddress, r.activityId, r.followerWallet)

/-- The `copy_executions` collection, a list of documents in insertion
order (most recent first). -/
abbrev ExecStore := List ExecRecord

/-- `CopyExecution.create`, filtered through the store's unique index on
`(traderAddress, activityId, followerWallet)`: inserting a document whose
key is already present raises a duplicate-key error, which every caller
catches, so the net state transition of a duplicate insert is the identity.
A fresh key is prepended. -/
def createCopyExecution (store : ExecStore) (r : ExecRecord) : ExecStore :=
  if store.any (fun e => e.key == r.key) then store else r :: store

/-- The uniqueness invariant enforced by the unique index: no two documents
share a key. -/
def uniqueKeys (store : ExecStore) : Prop :=
  store.Pairwise (fun a b => a.key ≠ b.key)

/-- The documents of the ledger for one `(traderAddress, activityId)` pair
(the filter used by both `getPendingFollowerIndices` and
`markActivityFullyProcessedIfDone`). -/
def recordsFor (store : ExecStore) (trader : String) (activityId : Nat) : ExecStore :=
  store.filter (fun r => r.traderAddress == trader && r.activityId == activityId)

/-- A configured follower wallet (`FollowerWallet` in `config/env`). -/
structure FollowerWallet where
  address : String
  deriving Repr, DecidableEq

/-- `getPendingFollowerIndices` from the multi-wallet trade executor:
collects the lowercased follower wallets already recorded for this
`(trader, activity)` and returns the indices of followers not among them.
The source maps each follower to its index or `-1` and filters out the
negative entries; over enumerated pairs this is a filter on the done-set
test followed by projection to the index. -/
def getPendingFollowerIndices (trader : String) (activityId : Nat)
    (followers : List FollowerWallet) (store : ExecStore) : List Nat :=
  let doneSet := (recordsFor store trader activityId).map
    (fun r => r.followerWallet.toLower)
  (followers.enum.filter
    (fun p => !(doneSet.contains p.2.address.toLower))).map Prod.fst

/-- Update a single activity document by id (`updateOne` on `_id`): apply
`f` to the matching document, leave everything else unchanged. -/
def updateActivity (acts : List ActivityDoc) (id : Nat)
    (f : ActivityDoc → ActivityDoc) : List ActivityDoc :=
  acts.map (fun d => if d.trade.id == id then f d else d)

/-- `markActivityFullyProcessedIfDone` from the multi-wallet trade
executor: count the `CopyExecution` documents for this activity; when the
count reaches the number of configured followers, set
`bot: true, botExcutedTime: 1` on the activity; otherwise do nothing. -/
def markActivityFullyProcessedIfDone (trader : String) (activityId : Nat)
    (totalFollowers : Nat) (acts : List ActivityDoc) (store : ExecStore) :
    List ActivityDoc :=
  let count := (recordsFor store trader activityId).length
  if totalFollowers ≤ count then
    updateActivity acts activityId
      (fun d => { d with bot := true, botExcutedTime := 1 })
  else acts

/-! ## Order validator (`OrderValidator.ts`) -/

/-- A position returned by the Polymarket positions API, with the fields
the validator reads. -/
structure Position where
  conditionId : String
  currentValue : Rat
  deriving Repr, DecidableEq

/-- The data a positions fetch yields once it resolves: `some xs` for a
JSON array of positions, `none` for well-formed JSON that is not an array
(the `Array.isArray` guard in `validateTrade`). -/
abbrev PositionsData := Option (List Position)

/-- The outcomes of the external calls `validateTrade` performs, each
wrapped in its own circuit breaker: the two position fetches and the
balance query.  `Except.error m` models a rejected promise (breaker open,
network fault, ...) carrying message `m`. -/
structure FetchEnv where
  myPositionsData : Except String PositionsData
  userPositionsData : Except String PositionsData
  myBalanceData : Except String Rat
  deriving Repr

/-- The reason strings `validateTrade` produces, with their payloads:
`insufficientBalance b s` models
`Insufficient balance: $<b> < $<s>` and `validationFailed m` models
`Validation failed: <m>` built in the catch-all handler. -/
inductive Reason where
  | insufficientBalance (myBalance usdcSize : Rat)
  | validationFailed (msg : String)
  deriving Repr, DecidableEq

/-- `ValidationResult` from `OrderValidator.ts`. -/
structure ValidationResult where
  isValid : Bool
  reason : Option Reason
  myPosition : Option Position
  userPosition : Option Position
  myBalance : Option Rat
  userBalance : Option Rat
  deriving Repr, DecidableEq

/-- An all-false result with a reason, the shape of every rejection. -/
def invalidResult (r : Reason) : ValidationResult :=
  { isValid := false, reason := some r, myPosition := none,
    userPosition := none, myBalance := none, userBalance := none }

/-- `validateTrade` from `OrderValidator.ts`.  The two position fetches run
under `Promise.all` (either rejection rejects the pair, the first fetch
first); a non-array payload raises a `ValidationError` caught by the same
catch-all; then the balance is fetched; finally a BUY trade whose notional
exceeds the available balance is rejected.  Every thrown fault lands in the
catch block, which returns `isValid: false` with a
`Validation failed: ...` reason instead of propagating. -/
def validateTrade (trade : TradeWithUser) (env : FetchEnv) : ValidationResult :=
  match env.myPositionsData, env.userPositionsData with
  | .error m, _ => invalidResult (.validationFailed m)
  | .ok _, .error m => invalidResult (.validationFailed m)
  | .ok myData, .ok userData =>
    match myData, userData with
    | some my_positions, some user_positions =>
      match env.myBalanceData with
      | .error m => invalidResult (.validationFailed m)
      | .ok my_balance =>
        let my_position := my_positions.find?
          (fun p => p.conditionId == trade.conditionId)
        let user_position := user_positions.find?
          (fun p => p.conditionId == trade.conditionId)
        let user_balance := user_positions.foldl
          (fun total p => total + p.currentValue) 0
        if trade.side == "BUY" && decide (my_balance < trade.usdcSize) then
          invalidResult (.insufficientBalance my_balance trade.usdcSize)
        else
          { isValid := true, reason := none, myPosition := my_position,
            userPosition := user_position, myBalance := some my_balance,
            userBalance := some user_balance }
    | _, _ =>
      invalidResult (.validationFailed "Invalid positions data received from API")

/-! ## Execution engine (`ExecutionEngine.ts`) -/

/-- One invocation of the order gateway (`postOrder`): the CLOB client it
was given (identified by its index in `clobClients`), the normalized side
string, and the trade fields the sizing context is built from. -/
structure Order where
  client : Nat
  side : String
  usdcSize : Rat
  price : Rat
  trader : String
  deriving Repr, DecidableEq

/-- Outcome of an order-gateway call, an oracle: the call either resolves
or rejects with an error message. -/
inductive GatewayOutcome where
  | ok
  | throws (msg : String)
  deriving Repr, DecidableEq

/-- The observable state the execution engine acts on: the activity
documents, the `copy_executions` ledger, the sequence of order-gateway
invocations, and the sequence of representative trades passed to
`validateTrade` (the last two record the engine's external calls). -/
structure ExecState where
  activities : List ActivityDoc
  executions : ExecStore
  orders : List Order
  valCalls : List TradeWithUser
  deriving Repr, DecidableEq

/-- `executeTrade` from `ExecutionEngine.ts` for one follower.
`clientIdx` identifies the ClobClient, `followerWallet` is `some w` in
multi-wallet mode and `none` in single-follower mode (`isMultiWallet`),
`preview` is `ENV.PREVIEW_MODE`, `env` and `gw` are the oracle outcomes of
the validator's external calls and of `postOrder`.  Mirrors the source:
single-follower mode first marks the activity processing
(`botExcutedTime: 1`); validation failure writes a failed `CopyExecution`
(multi) or `botExcutedTime: -1` (single); preview mode writes a simulated
success record (multi) or `bot: true` (single) without calling the
gateway; otherwise the gateway is invoked and its outcome recorded — a
thrown gateway fault is caught and converted to a failed record/status. -/
def executeTrade (clientIdx : Nat) (trade : TradeWithUser) (userAddress : String)
    (followerWallet : Option String) (preview : Bool) (env : FetchEnv)
    (gw : GatewayOutcome) (st : ExecState) : ExecState :=
  let markTime : Int → ExecState → ExecState := fun t s =>
    let acts := updateActivity s.activities trade.id
      (fun d => { d with botExcutedTime := t })
    { s with activities := acts }
  let record : ExecStatus → Bool → String → ExecState → ExecState :=
    fun status preview w s =>
      let ex := createCopyExecution s.executions
        { traderAddress := userAddress, activityId := trade.id,
          followerWallet := w, status := status, preview := preview }
      { s with executions := ex }
  let st := match followerWallet with
    | some _ => st
    | none => markTime 1 st
  let validation := validateTrade trade env
  let st := { st with valCalls := st.valCalls ++ [trade] }
  if validation.isValid = false then
    match followerWallet with
    | some w => record .failed false w st
    | none => markTime (-1) st
  else if preview then
    match followerWallet with
    | some w => record .success true w st
    | none =>
      let acts := updateActivity st.activities trade.id
        (fun d => { d with bot := true })
      { st with activities := acts }
  else
    let order : Order :=
      { client := clientIdx,
        side := if trade.side == "BUY" then "buy" else "sell",
        usdcSize := trade.usdcSize, price := trade.price,
        trader := userAddress }
    let st := { st with orders := st.orders ++ [order] }
    match gw with
    | .ok =>
      match followerWallet with
      | some w => record .success false w st
      | none => st
    | .throws _ =>
      match followerWallet with
      | some w => record .failed false w st
      | none => markTime (-1) st

/-- Set `botExcutedTime` on every constituent of a group (the
per-constituent `updateOne` loops of `executeAggregatedTrades`). -/
def markConstituents (acts : List ActivityDoc) (ts : List TradeWithUser)
    (time : Int) : List ActivityDoc :=
  ts.foldl (fun a t => updateActivity a t.id
    (fun d => { d with botExcutedTime := time })) acts

/-- One iteration of the loop body of `executeAggregatedTrades` from
`ExecutionEngine.ts` for group `g`: mark every constituent as processing
(`botExcutedTime: 1`); validate once using `agg.trades[0]` as
representative; on rejection mark every constituent failed
(`botExcutedTime: -1`) and place no order; on approval post a single order
built from the synthetic trade (`usdcSize := totalUsdcSize`,
`price := averagePrice`); a thrown gateway fault is caught and every
constituent is marked failed.  An empty constituent list (never produced
by the aggregator) would make `agg.trades[0]` undefined and the resulting
throw would be caught by the same catch block that marks constituents
failed. -/
def executeAggregatedOne (clientIdx : Nat) (g : AggregatedTrade)
    (env : FetchEnv) (gw : GatewayOutcome) (st : ExecState) : ExecState :=
  let st := { st with activities := markConstituents st.activities g.trades 1 }
  match g.trades.head? with
  | none =>
      { st with activities := markConstituents st.activities g.trades (-1) }
  | some rep =>
    let validation := validateTrade rep env
    let st := { st with valCalls := st.valCalls ++ [rep] }
    if validation.isValid = false then
      { st with activities := markConstituents st.activities g.trades (-1) }
    else
      let st := { st with orders := st.orders ++
        [{ client := clientIdx,
           side := if g.side == "BUY" then "buy" else "sell",
           usdcSize := g.totalUsdcSize, price := g.averagePrice,
           trader := g.userAddress }] }
      match gw with
      | .ok => st
      | .throws _ =>
        { st with activities := markConstituents st.activities g.trades (-1) }

/-- `executeAggregatedTrades` from `ExecutionEngine.ts`: process each ready
group in order with the one ClobClient it was given; the oracles `envOf`
and `gwOf` give the external-call outcomes of the i-th group. -/
def executeAggregatedTrades (clientIdx : Nat) (groups : List AggregatedTrade)
    (envOf : Nat → FetchEnv) (gwOf : Nat → GatewayOutcome) (st : ExecState) :
    ExecState :=
  (groups.enum).foldl
    (fun s p => executeAggregatedOne clientIdx p.2 (envOf p.1) (gwOf p.1) s) st

/-! ## Window pass over the aggregation buffer (`getReadyAggregatedTrades`) -/

/-- Mark every constituent of a skipped group as processed: the
`updateOne({ _id }, { bot: true })` loop of `getReadyAggregatedTrades`. -/
def markTradesSkipped (acts : List ActivityDoc) (ts : List TradeWithUser) :
    List ActivityDoc :=
  ts.foldl (fun a t => updateActivity a t.id (fun d => { d with bot := true })) acts

/-- `getReadyAggregatedTrades` from `TradeAggregator.ts`, iterating the
buffer entries in order.  A group whose age `now - firstTradeTime` has
reached `windowMs` is removed from the buffer: it is emitted as ready when
its accumulated notional meets `TRADE_AGGREGATION_MIN_TOTAL_USD`, and
otherwise its constituents are marked `bot: true` (skipped).  Younger
groups stay in the buffer.  Returns
`(ready groups, remaining buffer, updated activities)`. -/
def getReadyAggregatedTrades (now windowMs : Int) :
    AggBuffer → List ActivityDoc →
    List AggregatedTrade × AggBuffer × List ActivityDoc
  | [], acts => ([], [], acts)
  | kv :: rest, acts =>
    let g := kv.2
    if windowMs ≤ now - g.firstTradeTime then
      if TRADE_AGGREGATION_MIN_TOTAL_USD ≤ g.totalUsdcSize then
        let r := getReadyAggregatedTrades now windowMs rest acts
        (g :: r.1, r.2.1, r.2.2)
      else
        getReadyAggregatedTrades now windowMs rest (markTradesSkipped acts g.trades)
    else
      let r := getReadyAggregatedTrades now windowMs rest acts
      (r.1, kv :: r.2.1, r.2.2)

/-- The pending-trade query of `readTempTrades`:
`{ type: 'TRADE', bot: false, botExcutedTime: 0 }`. -/
def isPendingDoc (d : ActivityDoc) : Bool :=
  d.type == "TRADE" && d.bot == false && d.botExcutedTime == 0

/-- `readTempTrades`: the pending trades the next pipeline iteration will
see. -/
def readTempTrades (acts : List ActivityDoc) : List TradeWithUser :=
  (acts.filter isPendingDoc).map ActivityDoc.trade

/-! ## Pipeline loop (`tradeExecutor`, multi-wallet variant) -/

/-- The state one pipeline iteration acts on: the in-memory aggregation
buffer plus the persistent execution state. -/
structure LoopState where
  buffer : AggBuffer
  exec : ExecState
  deriving Repr

/-- The immediate execution path of the multi-wallet `tradeExecutor` loop
for one pending trade: compute the followers with no `CopyExecution` for
it via `getPendingFollowerIndices`, run `executeTrade` for each with that
follower's ClobClient (`clobClients[i]`), then
`markActivityFullyProcessedIfDone`. -/
def processImmediateTrade (trade : TradeWithUser)
    (followers : List FollowerWallet) (preview : Bool)
    (envOf : Nat → FetchEnv) (gwOf : Nat → GatewayOutcome)
    (st : ExecState) : ExecState :=
  let pend := getPendingFollowerIndices trade.userAddress trade.id
    followers st.executions
  let st := pend.foldl (fun s i =>
    match followers.get? i with
    | some f => executeTrade i trade trade.userAddress (some f.address)
        preview (envOf i) (gwOf i) s
    | none => s) st
  let acts := markActivityFullyProcessedIfDone trade.userAddress trade.id
    followers.length st.activities st.executions
  { st with activities := acts }

/-- The per-trade routing of the aggregation-enabled branch of the
multi-wallet `tradeExecutor` loop: a BUY trade whose notional is strictly
below `TRADE_AGGREGATION_MIN_TOTAL_USD` goes to the aggregation buffer;
every other trade takes the immediate path in the same iteration. -/
def dispatchTrade (now : Int) (followers : List FollowerWallet)
    (preview : Bool) (envOf : Nat → FetchEnv) (gwOf : Nat → GatewayOutcome)
    (trade : TradeWithUser) (st : LoopState) : LoopState :=
  if trade.side == "BUY" &&
      decide (trade.usdcSize < TRADE_AGGREGATION_MIN_TOTAL_USD) then
    { st with buffer := addToAggregationBuffer now trade st.buffer }
  else
    let exec := processImmediateTrade trade followers preview envOf gwOf st.exec
    { st with exec := exec }

/-- The aggregated-execution phase of the multi-wallet `tradeExecutor`
loop: collect the ready groups and run `executeAggregatedTrades` with
`clobClient = clobClients[0]` (`const clobClient = clobClients[0]; //
primary for aggregation`), i.e. every aggregated order goes through the
first follower's client. -/
def aggregatedPhase (now windowMs : Int) (envOf : Nat → FetchEnv)
    (gwOf : Nat → GatewayOutcome) (st : LoopState) : LoopState :=
  let r := getReadyAggregatedTrades now windowMs st.buffer st.exec.activities
  let exec := executeAggregatedTrades 0 r.1 envOf gwOf
    { st.exec with activities := r.2.2 }
  { buffer := r.2.1, exec := exec }

/-! ## Circuit breaker -/

/-- Breaker states (`CLOSED`/`OPEN`/`HALF_OPEN`); `opened` stands for the
source's `OPEN`. -/
inductive BreakerState where
  | closed
  | opened
  | halfOpen
  deriving Repr, DecidableEq

/-- Modelled from the spec: the `CircuitBreaker` class of
`src/utils/circuitBreaker.ts` is not present under `src/` — only its call
sites (`CircuitBreakerRegistry.getBreaker(name, threshold, cooldownMs)` in
`OrderValidator.ts` and `tradeMonitor.ts`) are.  This follows §4.1 of the
design: a named fault tracker with a consecutive-failure counter, a
failure threshold, a cool-down duration and the time it last opened. -/
structure Breaker where
  threshold : Nat
  cooldownMs : Int
  state : BreakerState
  failureCount : Nat
  openedAt : Int
  deriving Repr, DecidableEq

/-- Modelled from the spec: `CircuitBreakerRegistry.getBreaker` creates a
breaker for a named resource with the given threshold and cool-down, in
the initial CLOSED state. -/
def getBreaker (threshold : Nat) (cooldownMs : Int) : Breaker :=
  { threshold := threshold, cooldownMs := cooldownMs, state := .closed,
    failureCount := 0, openedAt := 0 }

/-- The breaker used for validation position/balance fetches:
`getBreaker('polymarket-validation-…', 3, 30000)` in `OrderValidator.ts`. -/
def validationBreaker : Breaker := getBreaker 3 30000

/-- The breaker used for activity polling:
`getBreaker('polymarket-activity', 5, 60000)` in `tradeMonitor.ts`. -/
def activityBreaker : Breaker := getBreaker 5 60000

/-- Modelled from the spec: `Breaker.execute(operation)` per §4.1.
CLOSED: the call passes through; success resets the consecutive-failure
counter, a failure increments it and, once the counter reaches the
threshold, flips the breaker OPEN recording the open time.  OPEN: before
the cool-down elapses every call fails fast with a retryable error and the
wrapped operation is not invoked; the first call after the cool-down is a
HALF_OPEN probe.  HALF_OPEN probe: success returns to CLOSED with the
counter reset, failure returns to OPEN with a fresh cool-down.  Returns
`(result, new breaker, whether the operation was invoked)`. -/
def Breaker.execute (b : Breaker) (now : Int) (op : Except String Unit) :
    Except String Unit × Breaker × Bool :=
  let probe : Except String Unit × Breaker × Bool :=
    match op with
    | .ok a => (.ok a, { b with state := .closed, failureCount := 0 }, true)
    | .error e => (.error e,
        { b with state := .opened, failureCount := b.failureCount,
                 openedAt := now }, true)
  match b.state with
  | .closed =>
    match op with
    | .ok a => (.ok a, { b with failureCount := 0 }, true)
    | .error e =>
      let c := b.failureCount + 1
      if b.threshold ≤ c then
        (.error e, { b with state := .opened, failureCount := c,
                            openedAt := now }, true)
      else
        (.error e, { b with failureCount := c }, true)
  | .opened =>
    if now - b.openedAt < b.cooldownMs then
      (.error "Circuit breaker is OPEN", b, false)
    else
      probe
  | .halfOpen => probe

/-- Run the breaker `n` times against a fixed operation outcome at a fixed
time, keeping only the breaker (used to iterate consecutive failures). -/
def Breaker.run (b : Breaker) (now : Int) (op : Except String Unit) :
    Nat → Breaker
  | 0 => b
  | n + 1 => ((b.execute now op).2.1).run now op n

/-- Whether an `Except` is an error (a rejected promise). -/
def isErr {ε α : Type} : Except ε α → Bool
  | .error _ => true
  | .ok _ => false

/-! ## Example fixtures used by concrete parts of claims and witnesses -/

/-- A BUY trade of notional 50 (the validation-rejection example of the
spec). -/
def exTrade50 : TradeWithUser :=
  { id := 1, userAddress := "0xtrader", conditionId := "cond1",
    asset := "asset1", side := "BUY", usdcSize := 50, price := 1/2 }

/-- A fetch environment where all calls succeed, positions are empty
arrays, and the follower balance is 10. -/
def exEnvBal10 : FetchEnv :=
  { myPositionsData := .ok (some []), userPositionsData := .ok (some []),
    myBalanceData := .ok 10 }

/-- The three aggregation-example trades of the spec: notionals
[0.2, 0.3, 0.4] at prices [0.50, 0.52, 0.55], all on the same key. -/
def exAgg1 : TradeWithUser :=
  { id := 11, userAddress := "0xtrader", conditionId := "cond1",
    asset := "asset1", side := "BUY", usdcSize := 1/5, price := 1/2 }

def exAgg2 : TradeWithUser :=
  { exAgg1 with id := 12, usdcSize := 3/10, price := 13/25 }

def exAgg3 : TradeWithUser :=
  { exAgg1 with id := 13, usdcSize := 2/5, price := 11/20 }

/-- The buffer after adding the three example trades in order. -/
def exAggBuffer : AggBuffer :=
  addToAggregationBuffer 2 exAgg3
    (addToAggregationBuffer 1 exAgg2 (addToAggregationBuffer 0 exAgg1 []))

/-! ## C6 — routing of pending trades when aggregation is enabled -/

/-- **C6.** When aggregation is enabled, the pipeline loop routes a pending
trade to the aggregation buffer exactly when its side is BUY and its
notional is strictly below the 1.0 USD minimum; every other trade — BUY at
or above the minimum and every SELL — bypasses the buffer and goes through
the immediate execution path in the same iteration. -/
theorem c6_routing (now : Int) (followers : List FollowerWallet)
    (preview : Bool) (envOf : Nat → FetchEnv) (gwOf : Nat → GatewayOutcome)
    (trade : TradeWithUser) (st : LoopState) :
    (trade.side = "BUY" ∧ trade.usdcSize < TRADE_AGGREGATION_MIN_TOTAL_USD →
      (dispatchTrade now followers preview envOf gwOf trade st).buffer =
        addToAggregationBuffer now trade st.buffer ∧
      (dispatchTrade now followers preview envOf gwOf trade st).exec = st.exec) ∧
    (¬(trade.side = "BUY" ∧ trade.usdcSize < TRADE_AGGREGATION_MIN_TOTAL_USD) →
      (dispatchTrade now followers preview envOf gwOf trade st).buffer =
        st.buffer ∧
      (dispatchTrade now followers preview envOf gwOf trade st).exec =
        processImmediateTrade trade followers preview envOf gwOf st.exec) := by
  constructor
  · rintro ⟨hside, hsize⟩
    simp [dispatchTrade, hside, hsize]
  · intro h
    have : ¬(trade.side == "BUY" &&
        decide (trade.usdcSize < TRADE_AGGREGATION_MIN_TOTAL_USD)) = true := by
      simp only [Bool.and_eq_true, beq_iff_eq, decide_eq_true_eq]
      exact h
    simp [dispatchTrade, this]

/-- Witness for C6 at concrete inputs: a $50 BUY trade is not buffered, a
$0.20 BUY trade is. -/
theorem c6_routing_witness :
    (dispatchTrade 0 [] false (fun _ => exEnvBal10) (fun _ => .ok) exTrade50
        ⟨[], [], [], [], []⟩).buffer = [] ∧
    (dispatchTrade 0 [] false (fun _ => exEnvBal10) (fun _ => .ok) exAgg1
        ⟨[], [], [], [], []⟩).buffer =
      addToAggregationBuffer 0 exAgg1 [] := by
  constructor
  · have h := (c6_routing 0 [] false (fun _ => exEnvBal10) (fun _ => .ok)
      exTrade50 ⟨[], [], [], [], []⟩).2
      (by norm_num [exTrade50, TRADE_AGGREGATION_MIN_TOTAL_USD])
    exact h.1
  · have h := (c6_routing 0 [] false (fun _ => exEnvBal10) (fun _ => .ok)
      exAgg1 ⟨[], [], [], [], []⟩).1
      (by norm_num [exAgg1, TRADE_AGGREGATION_MIN_TOTAL_USD])
    exact h.1

/-! ## C9 — circuit-breaker state machine -/

/-- **C9.** The per-resource breakers follow the spec's state machine.
(1) The registry configures 3 failures / 30s cool-down for the validation
resources and 5 / 60s for activity polling.  (2) In CLOSED, calls pass
through (the operation is invoked); a success resets the
consecutive-failure counter, a failure increments it; reaching the
threshold flips the breaker OPEN recording the open time, below the
threshold it stays CLOSED.  (3) In OPEN before the cool-down elapses,
every call fails fast with an error, the wrapped operation is not invoked
and the breaker is unchanged.  (4) The first call once the cool-down has
elapsed is a probe: its success returns the breaker to CLOSED with the
counter reset, its failure returns it to OPEN with a fresh cool-down.
(5) Three consecutive failures flip a fresh threshold-3 breaker OPEN. -/
theorem c9_breaker_machine :
    (validationBreaker.threshold = 3 ∧ validationBreaker.cooldownMs = 30000 ∧
     activityBreaker.threshold = 5 ∧ activityBreaker.cooldownMs = 60000) ∧
    (∀ (b : Breaker) (now : Int) (e : String), b.state = .closed →
      ((b.execute now (.ok ())).2.2 = true ∧
       (b.execute now (.ok ())).2.1.state = .closed ∧
       (b.execute now (.ok ())).2.1.failureCount = 0) ∧
      ((b.execute now (.error e)).2.2 = true ∧
       (b.execute now (.error e)).2.1.failureCount = b.failureCount + 1) ∧
      (b.threshold ≤ b.failureCount + 1 →
        (b.execute now (.error e)).2.1.state = .opened ∧
        (b.execute now (.error e)).2.1.openedAt = now) ∧
      (b.failureCount + 1 < b.threshold →
        (b.execute now (.error e)).2.1.state = .closed)) ∧
    (∀ (b : Breaker) (now : Int) (op : Except String Unit),
      b.state = .opened → now - b.openedAt < b.cooldownMs →
      (b.execute now op).2.2 = false ∧ (b.execute now op).2.1 = b ∧
      isErr (b.execute now op).1 = true) ∧
    (∀ (b : Breaker) (now : Int), b.state = .opened →
      b.cooldownMs ≤ now - b.openedAt →
      ((b.execute now (.ok ())).2.2 = true ∧
       (b.execute now (.ok ())).2.1.state = .closed ∧
       (b.execute now (.ok ())).2.1.failureCount = 0) ∧
      (∀ e : String, (b.execute now (.error e)).2.2 = true ∧
       (b.execute now (.error e)).2.1.state = .opened ∧
       (b.execute now (.error e)).2.1.openedAt = now)) ∧
    (∀ (now : Int) (e : String),
      ((getBreaker 3 30000).run now (.error e) 3).state = .opened) := by
  refine ⟨⟨rfl, rfl, rfl, rfl⟩, ?_, ?_, ?_, ?_⟩
  · intro b now e hb
    refine ⟨⟨?_, ?_, ?_⟩, ⟨?_, ?_⟩, ?_, ?_⟩
    · simp [Breaker.execute, hb]
    · simp [Breaker.execute, hb]
    · simp [Breaker.execute, hb]
    · simp only [Breaker.execute, hb]
      split <;> simp
    · simp only [Breaker.execute, hb]
      split <;> simp
    · intro h
      simp [Breaker.execute, hb, if_pos h]
    · intro h
      have hn : ¬ b.threshold ≤ b.failureCount + 1 := by omega
      simp [Breaker.execute, hb, if_neg hn]
  · intro b now op hb hcool
    have hlt : now - b.openedAt < b.cooldownMs := hcool
    cases op <;> simp [Breaker.execute, hb, if_pos hlt, isErr]
  · intro b now hb hcool
    have hnlt : ¬ now - b.openedAt < b.cooldownMs := not_lt.mpr hcool
    refine ⟨⟨?_, ?_, ?_⟩, fun e => ⟨?_, ?_, ?_⟩⟩ <;>
      simp [Breaker.execute, hb, if_neg hnlt]
  · intro now e
    simp [Breaker.run, Breaker.execute, getBreaker]

/-- Witness for C9 at concrete inputs: a fresh validation breaker flips
OPEN after three consecutive failures, fails fast 10s later without
invoking the operation, and closes on a successful probe 31s after
opening. -/
theorem c9_breaker_machine_witness :
    (((getBreaker 3 30000).run 0 (.error "boom") 3).state = .opened) ∧
    ((validationBreaker.execute 0 (.error "boom")).2.1.failureCount = 1) ∧
    (∀ b : Breaker, b = Breaker.mk 3 30000 .opened 3 0 →
      (b.execute 10000 (.ok ())).2.2 = false ∧
      (b.execute 31000 (.ok ())).2.1.state = .closed) := by
  refine ⟨?_, ?_, ?_⟩
  · exact (c9_breaker_machine.2.2.2.2) 0 "boom"
  · exact (((c9_breaker_machine.2.1) validationBreaker 0 "boom" rfl).2.1).2
  · intro b hb
    constructor
    · exact ((c9_breaker_machine.2.2.1) b 10000 (.ok ())
        (by rw [hb]) (by rw [hb]; norm_num)).1
    · exact (((c9_breaker_machine.2.2.2.1) b 31000
        (by rw [hb]) (by rw [hb]; norm_num)).1).2.1

/-! ## C2 — completion rule -/

/-- Every document of `updateActivity acts id f` comes from a document of
`acts`, updated when its id matches. -/
theorem updateActivity_mem {acts : List ActivityDoc} {id : Nat}
    {f : ActivityDoc → ActivityDoc} {d : ActivityDoc}
    (h : d ∈ updateActivity acts id f) :
    ∃ d₀ ∈ acts, d = if d₀.trade.id == id then f d₀ else d₀ := by
  rcases List.mem_map.mp h with ⟨d₀, hd₀, heq⟩
  exact ⟨d₀, hd₀, heq.symm⟩

/-- **C2.** The multi-wallet pipeline marks a SourceTrade DONE
(`bot: true, botExcutedTime: 1`) only when the number of ExecutionRecords
for it has reached the number of configured followers: with fewer records
present, `markActivityFullyProcessedIfDone` leaves the activity store
untouched (so the trade is re-evaluated next iteration), and once the
count reaches the follower count the trade's document is marked DONE. -/
theorem c2_completion_rule (trader : String) (activityId : Nat)
    (totalFollowers : Nat) (acts : List ActivityDoc) (store : ExecStore) :
    ((recordsFor store trader activityId).length < totalFollowers →
      markActivityFullyProcessedIfDone trader activityId totalFollowers
        acts store = acts) ∧
    (totalFollowers ≤ (recordsFor store trader activityId).length →
      ∀ d ∈ markActivityFullyProcessedIfDone trader activityId totalFollowers
          acts store,
        d.trade.id = activityId → d.bot = true ∧ d.botExcutedTime = 1) := by
  constructor
  · intro hlt
    have hn : ¬ totalFollowers ≤ (recordsFor store trader activityId).length := by
      omega
    simp [markActivityFullyProcessedIfDone, if_neg hn]
  · intro hle d hd hid
    rw [markActivityFullyProcessedIfDone, if_pos hle] at hd
    rcases updateActivity_mem hd with ⟨d₀, _, heq⟩
    by_cases hmatch : d₀.trade.id = activityId
    · simp [hmatch] at heq
      subst heq
      exact ⟨rfl, rfl⟩
    · have : (d₀.trade.id == activityId) = false := by
        simpa using hmatch
      rw [this] at heq
      simp at heq
      subst heq
      exact absurd hid hmatch

/-- Witness for C2: with 3 configured followers and only 2 records for the
trade, the activity store is unchanged; with 3 records, the document is
marked DONE. -/
theorem c2_completion_rule_witness :
    (markActivityFullyProcessedIfDone "0xtrader" 1 3
      [⟨exTrade50, "TRADE", false, 0⟩]
      [⟨"0xtrader", 1, "0xf1", .success, false⟩,
       ⟨"0xtrader", 1, "0xf2", .failed, false⟩] =
      [⟨exTrade50, "TRADE", false, 0⟩]) ∧
    (∀ d ∈ markActivityFullyProcessedIfDone "0xtrader" 1 3
        [⟨exTrade50, "TRADE", false, 0⟩]
        [⟨"0xtrader", 1, "0xf1", .success, false⟩,
         ⟨"0xtrader", 1, "0xf2", .failed, false⟩,
         ⟨"0xtrader", 1, "0xf3", .failed, false⟩],
      d.trade.id = 1 → d.bot = true ∧ d.botExcutedTime = 1) := by
  constructor
  · exact (c2_completion_rule "0xtrader" 1 3
      [⟨exTrade50, "TRADE", false, 0⟩]
      [⟨"0xtrader", 1, "0xf1", .success, false⟩,
       ⟨"0xtrader", 1, "0xf2", .failed, false⟩]).1
      (by simp [recordsFor])
  · exact (c2_completion_rule "0xtrader" 1 3
      [⟨exTrade50, "TRADE", false, 0⟩]
      [⟨"0xtrader", 1, "0xf1", .success, false⟩,
       ⟨"0xtrader", 1, "0xf2", .failed, false⟩,
       ⟨"0xtrader", 1, "0xf3", .failed, false⟩]).2
      (by simp [recordsFor])

/-! ## C3 — validation rejection conditions -/

/-- **C3.** `validateTrade` rejects exactly when a positions fetch is
thrown, a positions payload is not an array, the balance fetch is thrown,
or the trade is a BUY whose notional strictly exceeds the follower's
available balance; every rejection carries a reason instead of propagating
the fault (the function is total on its oracle inputs); and the concrete
BUY trade of notional 50 against balance 10 is rejected with the
insufficient-balance reason citing both amounts. -/
theorem c3_validation_rejection (trade : TradeWithUser) (env : FetchEnv) :
    ((validateTrade trade env).isValid = false ↔
      isErr env.myPositionsData = true ∨ isErr env.userPositionsData = true ∨
      env.myPositionsData = .ok none ∨ env.userPositionsData = .ok none ∨
      isErr env.myBalanceData = true ∨
      (∃ b, env.myBalanceData = .ok b ∧ trade.side = "BUY" ∧
        b < trade.usdcSize)) ∧
    ((validateTrade trade env).isValid = false →
      (validateTrade trade env).reason.isSome = true) ∧
    (validateTrade exTrade50 exEnvBal10 =
      invalidResult (.insufficientBalance 10 50)) := by
  obtain ⟨mp, up, mb⟩ := env
  refine ⟨?_, ?_, ?_⟩
  · cases mp with
    | error m => simp [validateTrade, invalidResult, isErr]
    | ok mpd =>
      cases up with
      | error m => simp [validateTrade, invalidResult, isErr]
      | ok upd =>
        cases mpd with
        | none => cases upd <;> simp [validateTrade, invalidResult, isErr]
        | some mps =>
          cases upd with
          | none => simp [validateTrade, invalidResult, isErr]
          | some ups =>
            cases mb with
            | error m => simp [validateTrade, invalidResult, isErr]
            | ok bal =>
              simp only [validateTrade]
              split
              next hcond =>
                simp only [Bool.and_eq_true, beq_iff_eq,
                  decide_eq_true_eq] at hcond
                simp [invalidResult, isErr, hcond.1, hcond.2]
              next hcond =>
                simp only [Bool.and_eq_true, beq_iff_eq,
                  decide_eq_true_eq] at hcond
                simp only [isErr]
                constructor
                · intro h
                  exact absurd h (by simp)
                · rintro (h | h | h | h | h | ⟨b, hb, hside, hlt⟩) <;>
                    try simp_all
                  linarith
  · intro h
    cases mp with
    | error m => simp [validateTrade, invalidResult]
    | ok mpd =>
      cases up with
      | error m => simp [validateTrade, invalidResult]
      | ok upd =>
        cases mpd with
        | none => cases upd <;> simp [validateTrade, invalidResult]
        | some mps =>
          cases upd with
          | none => simp [validateTrade, invalidResult]
          | some ups =>
            cases mb with
            | error m => simp [validateTrade, invalidResult]
            | ok bal =>
              simp only [validateTrade] at h ⊢
              split at h
              next hcond => simp [invalidResult, hcond]
              next hcond => simp [hcond] at h
  · simp only [validateTrade, exTrade50, exEnvBal10]
    norm_num [invalidResult]

/-- Witness for C3: the concrete shortfall case is rejected and carries a
reason, obtained through the theorem's equivalence. -/
theorem c3_validation_rejection_witness :
    (validateTrade exTrade50 exEnvBal10).isValid = false ∧
    (validateTrade exTrade50 exEnvBal10).reason.isSome = true := by
  have h := c3_validation_rejection exTrade50 exEnvBal10
  have hfalse : (validateTrade exTrade50 exEnvBal10).isValid = false := by
    refine h.1.mpr (Or.inr (Or.inr (Or.inr (Or.inr (Or.inr ⟨10, rfl, rfl, ?_⟩)))))
    norm_num [exTrade50]
  exact ⟨hfalse, h.2.1 hfalse⟩

/-! ## C5 — aggregation-buffer bookkeeping -/

theorem sumSizes_append_single (ts : List TradeWithUser) (t : TradeWithUser) :
    sumSizes (ts ++ [t]) = sumSizes ts + t.usdcSize := by
  simp [sumSizes, List.foldl_append]

/-- `addToAggregationBuffer` preserves the bookkeeping invariant: every
group's cached total stays the sum of its constituents' notionals and its
cached average price stays the volume-weighted average over all
constituents (the merge branch recomputes it from the full constituent
list). -/
theorem addToAggregationBuffer_wf (now : Int) (t : TradeWithUser)
    (buffer : AggBuffer) (hwf : bufferWf buffer) (hpos : 0 < t.usdcSize) :
    bufferWf (addToAggregationBuffer now t buffer) := by
  intro kv hkv
  simp only [addToAggregationBuffer] at hkv
  split at hkv
  · -- existing group: in-place merge
    rcases List.mem_map.mp hkv with ⟨kv₁, h₁, heq⟩
    by_cases hk : (kv₁.1 == getAggregationKey t) = true
    · rw [if_pos hk] at heq
      obtain ⟨hts, havg, hall⟩ := hwf kv₁ h₁
      subst heq
      refine ⟨?_, ?_, ?_⟩
      · simpa [hts] using (sumSizes_append_single kv₁.2.trades t).symm
      · have htot : kv₁.2.totalUsdcSize + t.usdcSize =
            sumSizes (kv₁.2.trades ++ [t]) := by
          rw [hts, sumSizes_append_single]
        simpa using congrArg (fun x => totalValueOf (kv₁.2.trades ++ [t]) / x) htot
      · intro t' ht'
        rcases List.mem_append.mp ht' with h | h
        · exact hall t' h
        · rw [List.mem_singleton.mp h]
          exact hpos
    · rw [if_neg hk] at heq
      subst heq
      exact hwf kv₁ h₁
  · -- fresh group seeded with this trade
    rcases List.mem_append.mp hkv with h | h
    · exact hwf kv h
    · rw [List.mem_singleton.mp h]
      refine ⟨?_, ?_, ?_⟩
      · simp [sumSizes]
      · simp only [totalValueOf, sumSizes, List.foldl_cons, List.foldl_nil,
          zero_add]
        rw [mul_comm, mul_div_assoc, div_self hpos.ne', mul_one]
      · intro t' ht'
        rw [List.mem_singleton.mp ht']
        exact hpos

/-- Counterexample to **C5 as stated**: for constituent notionals
[0.2, 0.3, 0.4] at prices [0.50, 0.52, 0.55] on one key, the buffer's
weighted average price is exactly 119/225 = 0.528̄8, whose distance to the
claimed 0.5289 is 1/90000 ≈ 1.1e-5 — not within the claimed 1e-6. -/
theorem c5_tolerance_counterexample :
    exAggBuffer.map (fun kv => kv.2.averagePrice) = [119/225] ∧
    ¬ (|(119 : Rat)/225 - 5289/10000| ≤ 1/1000000) := by
  constructor
  · simp only [exAggBuffer, addToAggregationBuffer, getAggregationKey,
      exAgg1, exAgg2, exAgg3]
    norm_num [totalValueOf]
  · have hx : (119 : Rat)/225 - 5289/10000 = -(1/90000) := by norm_num
    rw [hx, abs_neg, abs_of_nonneg (by norm_num : (0 : Rat) ≤ 1/90000)]
    norm_num

/-- **C5 (amended).** After any sequence of `addToAggregationBuffer` calls
on trades of positive notional, every group's `totalUsdcSize` equals the
sum of its constituents' notionals and its `averagePrice` equals the
volume-weighted average Σ(sizeᵢ·priceᵢ)/Σ(sizeᵢ) over all constituents,
recomputed from the full constituent list on each merge; for the spec's
example [0.2, 0.3, 0.4] at [0.50, 0.52, 0.55] the total is 0.9 and the
average price is 0.5289 within 1e-4 (exactly 119/225 ≈ 0.528889, which is
not within the 1e-6 the spec claims). -/
theorem c5_weighted_average :
    (∀ (now : Int) (t : TradeWithUser) (buffer : AggBuffer),
      bufferWf buffer → 0 < t.usdcSize →
      bufferWf (addToAggregationBuffer now t buffer)) ∧
    exAggBuffer.map (fun kv => (kv.2.totalUsdcSize, kv.2.averagePrice)) =
      [(9/10, 119/225)] ∧
    |(119 : Rat)/225 - 5289/10000| ≤ 1/10000 := by
  refine ⟨fun now t buffer hwf hpos =>
    addToAggregationBuffer_wf now t buffer hwf hpos, ?_, ?_⟩
  · simp only [exAggBuffer, addToAggregationBuffer, getAggregationKey,
      exAgg1, exAgg2, exAgg3]
    norm_num [totalValueOf]
  · have hx : (119 : Rat)/225 - 5289/10000 = -(1/90000) := by norm_num
    rw [hx, abs_neg, abs_of_nonneg (by norm_num : (0 : Rat) ≤ 1/90000)]
    norm_num

/-- Witness for the amended C5: the invariant applied to the first example
trade over the empty buffer. -/
theorem c5_weighted_average_witness :
    bufferWf (addToAggregationBuffer 0 exAgg1 []) := by
  refine c5_weighted_average.1 0 exAgg1 [] ?_ ?_
  · intro kv hkv
    cases hkv
  · norm_num [exAgg1]

/-! ## C8 — preview (dry-run) mode -/

/-- **C8.** With preview mode on and validation approving the trade,
`executeTrade` never invokes the order gateway: in multi-wallet mode it
writes exactly one ExecutionRecord with status `success` and
`preview: true` and touches nothing else; in single-follower mode it marks
the trade's status directly (`botExcutedTime: 1` on entry, then
`bot: true`) and writes no ledger record. -/
theorem c8_preview_mode (clientIdx : Nat) (trade : TradeWithUser)
    (userAddress w : String) (env : FetchEnv) (gw : GatewayOutcome)
    (st : ExecState) (hvalid : (validateTrade trade env).isValid = true) :
    ((executeTrade clientIdx trade userAddress (some w) true env gw st).orders =
        st.orders ∧
     (executeTrade clientIdx trade userAddress (some w) true env gw st).executions =
        createCopyExecution st.executions
          { traderAddress := userAddress, activityId := trade.id,
            followerWallet := w, status := .success, preview := true } ∧
     (executeTrade clientIdx trade userAddress (some w) true env gw st).activities =
        st.activities) ∧
    ((executeTrade clientIdx trade userAddress none true env gw st).orders =
        st.orders ∧
     (executeTrade clientIdx trade userAddress none true env gw st).executions =
        st.executions ∧
     (executeTrade clientIdx trade userAddress none true env gw st).activities =
        updateActivity
          (updateActivity st.activities trade.id
            (fun d => { d with botExcutedTime := 1 }))
          trade.id (fun d => { d with bot := true })) := by
  have hne : ¬ (validateTrade trade env).isValid = false := by
    rw [hvalid]
    simp
  constructor
  · refine ⟨?_, ?_, ?_⟩ <;> simp [executeTrade, hne]
  · refine ⟨?_, ?_, ?_⟩ <;> simp [executeTrade, hne]

/-- Witness for C8: a valid SELL-side trade under preview mode against a
rich follower, in multi-wallet mode, yields the simulated success record
and no gateway call. -/
theorem c8_preview_mode_witness :
    (executeTrade 0 { exTrade50 with side := "SELL" } "0xtrader"
        (some "0xf1") true exEnvBal10 .ok ⟨[], [], [], []⟩).orders = [] ∧
    (executeTrade 0 { exTrade50 with side := "SELL" } "0xtrader"
        (some "0xf1") true exEnvBal10 .ok ⟨[], [], [], []⟩).executions =
      [{ traderAddress := "0xtrader", activityId := exTrade50.id,
         followerWallet := "0xf1", status := .success, preview := true }] := by
  have h := c8_preview_mode 0 { exTrade50 with side := "SELL" } "0xtrader"
    "0xf1" exEnvBal10 .ok ⟨[], [], [], []⟩
    (by simp [validateTrade, exEnvBal10, exTrade50])
  refine ⟨h.1.1, ?_⟩
  rw [h.1.2.1]
  simp [createCopyExecution]

/-! ## C7 — all-or-nothing aggregated execution -/

/-- All documents with a given trade id carry `botExcutedTime = v`. -/
def timeSetOn (acts : List ActivityDoc) (i : Nat) (v : Int) : Prop :=
  ∀ d ∈ acts, d.trade.id = i → d.botExcutedTime = v

theorem updateActivity_timeSetOn_self (acts : List ActivityDoc) (i : Nat)
    (v : Int) :
    timeSetOn (updateActivity acts i
      (fun d => { d with botExcutedTime := v })) i v := by
  intro d hd hid
  rcases updateActivity_mem hd with ⟨d₀, _, heq⟩
  by_cases h : d₀.trade.id = i
  · rw [if_pos (by simpa using h)] at heq
    rw [heq]
  · rw [if_neg (by simpa using h)] at heq
    rw [heq] at hid
    exact absurd hid h

theorem updateActivity_timeSetOn_mono {acts : List ActivityDoc} {i : Nat}
    {v : Int} (h : timeSetOn acts i v) (j : Nat) :
    timeSetOn (updateActivity acts j
      (fun d => { d with botExcutedTime := v })) i v := by
  intro d hd hid
  rcases updateActivity_mem hd with ⟨d₀, h₀, heq⟩
  by_cases hj : d₀.trade.id = j
  · rw [if_pos (by simpa using hj)] at heq
    rw [heq]
  · rw [if_neg (by simpa using hj)] at heq
    rw [heq] at hid ⊢
    exact h d₀ h₀ hid

theorem markConstituents_timeSetOn_mono {acts : List ActivityDoc} {i : Nat}
    {v : Int} (ts : List TradeWithUser) (h : timeSetOn acts i v) :
    timeSetOn (markConstituents acts ts v) i v := by
  induction ts generalizing acts with
  | nil => exact h
  | cons t ts ih =>
    exact ih (updateActivity_timeSetOn_mono h t.id)

/-- After `markConstituents acts ts v`, every constituent's document
carries `botExcutedTime = v`. -/
theorem markConstituents_timeSetOn (acts : List ActivityDoc)
    (ts : List TradeWithUser) (v : Int) :
    ∀ t ∈ ts, timeSetOn (markConstituents acts ts v) t.id v := by
  induction ts generalizing acts with
  | nil => intro t ht; cases ht
  | cons t₀ ts ih =>
    intro t ht
    rcases List.mem_cons.mp ht with h | h
    · subst h
      exact markConstituents_timeSetOn_mono ts
        (updateActivity_timeSetOn_self acts t.id v)
    · exact ih _ t h

/-- **C7.** `executeAggregatedOne` validates a ready group exactly once,
with the group's first constituent as representative, and that one result
gates the whole group: on rejection every constituent is marked failed
(`botExcutedTime = -1`) and no order is placed; on approval exactly one
order is issued, sized at the group's total notional and priced at its
weighted-average price, and every constituent uniformly carries the
group's outcome (the processing marker `1` on gateway success, `-1` on a
thrown gateway fault). -/
theorem c7_aggregated_all_or_nothing (clientIdx : Nat) (g : AggregatedTrade)
    (env : FetchEnv) (gw : GatewayOutcome) (st : ExecState)
    (h : g.trades ≠ []) :
    ((executeAggregatedOne clientIdx g env gw st).valCalls =
      st.valCalls ++ [g.trades.head h]) ∧
    ((validateTrade (g.trades.head h) env).isValid = false →
      (executeAggregatedOne clientIdx g env gw st).orders = st.orders ∧
      ∀ t ∈ g.trades,
        timeSetOn (executeAggregatedOne clientIdx g env gw st).activities
          t.id (-1)) ∧
    ((validateTrade (g.trades.head h) env).isValid = true →
      ((executeAggregatedOne clientIdx g env gw st).orders = st.orders ++
        [{ client := clientIdx,
           side := if g.side == "BUY" then "buy" else "sell",
           usdcSize := g.totalUsdcSize, price := g.averagePrice,
           trader := g.userAddress }]) ∧
      (gw = .ok → ∀ t ∈ g.trades,
        timeSetOn (executeAggregatedOne clientIdx g env gw st).activities
          t.id 1) ∧
      (∀ m, gw = .throws m → ∀ t ∈ g.trades,
        timeSetOn (executeAggregatedOne clientIdx g env gw st).activities
          t.id (-1))) := by
  obtain ⟨rep, rest, hg⟩ := List.exists_cons_of_ne_nil h
  have hhead : g.trades.head h = rep := by
    simp [hg]
  rw [hhead]
  refine ⟨?_, ?_, ?_⟩
  · by_cases hv : (validateTrade rep env).isValid = false
    · simp [executeAggregatedOne, hg, hv]
    · cases gw <;> simp [executeAggregatedOne, hg, hv]
  · intro hv
    constructor
    · simp [executeAggregatedOne, hg, hv]
    · intro t ht
      have : (executeAggregatedOne clientIdx g env gw st).activities =
          markConstituents
            (markConstituents st.activities g.trades 1) g.trades (-1) := by
        simp [executeAggregatedOne, hg, hv]
      rw [this]
      exact markConstituents_timeSetOn _ _ _ t ht
  · intro hv
    have hnv : ¬ (validateTrade rep env).isValid = false := by
      rw [hv]; simp
    refine ⟨?_, ?_, ?_⟩
    · cases gw <;> simp [executeAggregatedOne, hg, hnv]
    · intro hgw t ht
      subst hgw
      have : (executeAggregatedOne clientIdx g env .ok st).activities =
          markConstituents st.activities g.trades 1 := by
        simp [executeAggregatedOne, hg, hnv]
      rw [this]
      exact markConstituents_timeSetOn _ _ _ t ht
    · intro m hgw t ht
      subst hgw
      have : (executeAggregatedOne clientIdx g env (.throws m) st).activities =
          markConstituents
            (markConstituents st.activities g.trades 1) g.trades (-1) := by
        simp [executeAggregatedOne, hg, hnv]
      rw [this]
      exact markConstituents_timeSetOn _ _ _ t ht

/-- Witness for C7: a singleton group whose representative fails
validation (insufficient balance) places no order and marks its
constituent failed. -/
theorem c7_aggregated_all_or_nothing_witness :
    (executeAggregatedOne 0
      { userAddress := "0xtrader", conditionId := "cond1", asset := "asset1",
        side := "BUY", trades := [exTrade50], totalUsdcSize := 50,
        averagePrice := 1/2, firstTradeTime := 0, lastTradeTime := 0 }
      exEnvBal10 .ok
      ⟨[⟨exTrade50, "TRADE", false, 0⟩], [], [], []⟩).orders = [] ∧
    ∀ d ∈ (executeAggregatedOne 0
      { userAddress := "0xtrader", conditionId := "cond1", asset := "asset1",
        side := "BUY", trades := [exTrade50], totalUsdcSize := 50,
        averagePrice := 1/2, firstTradeTime := 0, lastTradeTime := 0 }
      exEnvBal10 .ok
      ⟨[⟨exTrade50, "TRADE", false, 0⟩], [], [], []⟩).activities,
      d.trade.id = exTrade50.id → d.botExcutedTime = -1 := by
  have h := c7_aggregated_all_or_nothing 0
    { userAddress := "0xtrader", conditionId := "cond1", asset := "asset1",
      side := "BUY", trades := [exTrade50], totalUsdcSize := 50,
      averagePrice := 1/2, firstTradeTime := 0, lastTradeTime := 0 }
    exEnvBal10 .ok ⟨[⟨exTrade50, "TRADE", false, 0⟩], [], [], []⟩
    (by simp)
  have hv : (validateTrade exTrade50 exEnvBal10).isValid = false := by
    simp only [validateTrade, exTrade50, exEnvBal10]
    norm_num [invalidResult]
  have h2 := h.2.1 (by simpa using hv)
  exact ⟨h2.1, h2.2 exTrade50 (by simp)⟩

/-! ## C10 — the aggregated path writes no ExecutionRecord and uses only
the first follower's client -/

theorem executeAggregatedOne_executions (c : Nat) (g : AggregatedTrade)
    (env : FetchEnv) (gw : GatewayOutcome) (st : ExecState) :
    (executeAggregatedOne c g env gw st).executions = st.executions := by
  cases hh : g.trades.head? with
  | none => simp [executeAggregatedOne, hh]
  | some rep =>
    by_cases hv : (validateTrade rep env).isValid = false
    · simp [executeAggregatedOne, hh, hv]
    · cases gw <;> simp [executeAggregatedOne, hh, hv]

theorem executeAggregatedOne_orders (c : Nat) (g : AggregatedTrade)
    (env : FetchEnv) (gw : GatewayOutcome) (st : ExecState) :
    ∀ o ∈ (executeAggregatedOne c g env gw st).orders,
      o ∈ st.orders ∨ o.client = c := by
  intro o ho
  cases hh : g.trades.head? with
  | none =>
    rw [show (executeAggregatedOne c g env gw st).orders = st.orders by
      simp [executeAggregatedOne, hh]] at ho
    exact Or.inl ho
  | some rep =>
    by_cases hv : (validateTrade rep env).isValid = false
    · rw [show (executeAggregatedOne c g env gw st).orders = st.orders by
        simp [executeAggregatedOne, hh, hv]] at ho
      exact Or.inl ho
    · have horders : (executeAggregatedOne c g env gw st).orders =
          st.orders ++ [⟨c, if g.side == "BUY" then "buy" else "sell",
            g.totalUsdcSize, g.averagePrice, g.userAddress⟩] := by
        cases gw <;> simp [executeAggregatedOne, hh, hv]
      rw [horders] at ho
      rcases List.mem_append.mp ho with h | h
      · exact Or.inl h
      · rw [List.mem_singleton.mp h]
        exact Or.inr rfl

theorem executeAggregatedTrades_executions (c : Nat)
    (groups : List AggregatedTrade) (envOf : Nat → FetchEnv)
    (gwOf : Nat → GatewayOutcome) (st : ExecState) :
    (executeAggregatedTrades c groups envOf gwOf st).executions =
      st.executions := by
  suffices h : ∀ (l : List (Nat × AggregatedTrade)) (s : ExecState),
      (l.foldl (fun s p =>
        executeAggregatedOne c p.2 (envOf p.1) (gwOf p.1) s) s).executions =
      s.executions by
    exact h groups.enum st
  intro l
  induction l with
  | nil => intro s; rfl
  | cons p l ih =>
    intro s
    rw [List.foldl_cons, ih, executeAggregatedOne_executions]

theorem executeAggregatedTrades_orders (c : Nat)
    (groups : List AggregatedTrade) (envOf : Nat → FetchEnv)
    (gwOf : Nat → GatewayOutcome) (st : ExecState) :
    ∀ o ∈ (executeAggregatedTrades c groups envOf gwOf st).orders,
      o ∈ st.orders ∨ o.client = c := by
  suffices h : ∀ (l : List (Nat × AggregatedTrade)) (s : ExecState),
      ∀ o ∈ (l.foldl (fun s p =>
        executeAggregatedOne c p.2 (envOf p.1) (gwOf p.1) s) s).orders,
      o ∈ s.orders ∨ o.client = c by
    exact h groups.enum st
  intro l
  induction l with
  | nil => intro s o ho; exact Or.inl ho
  | cons p l ih =>
    intro s o ho
    rw [List.foldl_cons] at ho
    rcases ih _ o ho with h | h
    · exact executeAggregatedOne_orders c p.2 (envOf p.1) (gwOf p.1) s o h
    · exact Or.inr h

/-- **C10.** The aggregated execution path leaves the `copy_executions`
collection untouched for every input (it records outcomes only through the
SourceTrade's `botExcutedTime`), and in the multi-wallet orchestrator
every order the aggregated phase submits that is not a pre-existing one
goes through client 0 — the first follower's ClobClient — so aggregated
batches are copied to at most that one follower. -/
theorem c10_aggregated_frame (now windowMs : Int) (envOf : Nat → FetchEnv)
    (gwOf : Nat → GatewayOutcome) (st : LoopState) :
    (aggregatedPhase now windowMs envOf gwOf st).exec.executions =
      st.exec.executions ∧
    ∀ o ∈ (aggregatedPhase now windowMs envOf gwOf st).exec.orders,
      o ∈ st.exec.orders ∨ o.client = 0 := by
  constructor
  · rw [show (aggregatedPhase now windowMs envOf gwOf st).exec =
      executeAggregatedTrades 0
        (getReadyAggregatedTrades now windowMs st.buffer st.exec.activities).1
        envOf gwOf
        { st.exec with activities :=
          (getReadyAggregatedTrades now windowMs st.buffer
            st.exec.activities).2.2 } from rfl]
    rw [executeAggregatedTrades_executions]
  · intro o ho
    simp only [aggregatedPhase] at ho
    rcases executeAggregatedTrades_orders 0 _ envOf gwOf _ o ho with h | h
    · exact Or.inl h
    · exact Or.inr h

/-- Witness for C10: a one-group buffer past its window produces exactly
one order, through client 0, and writes no execution record. -/
theorem c10_aggregated_frame_witness :
    (aggregatedPhase 1000 500 (fun _ => exEnvBal10) (fun _ => .ok)
      ⟨[("k", { userAddress := "0xtrader", conditionId := "cond1",
                asset := "asset1", side := "BUY",
                trades := [{ exAgg1 with usdcSize := 2 }], totalUsdcSize := 2,
                averagePrice := 1/2, firstTradeTime := 0,
                lastTradeTime := 0 })],
        ⟨[], [], [], []⟩⟩).exec.executions = [] ∧
    ∀ o ∈ (aggregatedPhase 1000 500 (fun _ => exEnvBal10) (fun _ => .ok)
      ⟨[("k", { userAddress := "0xtrader", conditionId := "cond1",
                asset := "asset1", side := "BUY",
                trades := [{ exAgg1 with usdcSize := 2 }], totalUsdcSize := 2,
                averagePrice := 1/2, firstTradeTime := 0,
                lastTradeTime := 0 })],
        ⟨[], [], [], []⟩⟩).exec.orders, o.client = 0 := by
  have h := c10_aggregated_frame 1000 500 (fun _ => exEnvBal10)
    (fun _ => .ok)
    ⟨[("k", { userAddress := "0xtrader", conditionId := "cond1",
              asset := "asset1", side := "BUY",
              trades := [{ exAgg1 with usdcSize := 2 }], totalUsdcSize := 2,
              averagePrice := 1/2, firstTradeTime := 0,
              lastTradeTime := 0 })],
      ⟨[], [], [], []⟩⟩
  refine ⟨h.1, fun o ho => ?_⟩
  rcases h.2 o ho with hmem | hc
  · cases hmem
  · exact hc

/-! ## C4 — window gating of the aggregation buffer -/

/-- All documents with a given trade id carry `bot = true` (have left the
pending set for good). -/
def botSetOn (acts : List ActivityDoc) (i : Nat) : Prop :=
  ∀ d ∈ acts, d.trade.id = i → d.bot = true

theorem updateActivity_botSetOn_self (acts : List ActivityDoc) (i : Nat) :
    botSetOn (updateActivity acts i (fun d => { d with bot := true })) i := by
  intro d hd hid
  rcases updateActivity_mem hd with ⟨d₀, _, heq⟩
  by_cases h : d₀.trade.id = i
  · rw [if_pos (by simpa using h)] at heq
    rw [heq]
  · rw [if_neg (by simpa using h)] at heq
    rw [heq] at hid
    exact absurd hid h

theorem updateActivity_botSetOn_mono {acts : List ActivityDoc} {i : Nat}
    (h : botSetOn acts i) (j : Nat) :
    botSetOn (updateActivity acts j (fun d => { d with bot := true })) i := by
  intro d hd hid
  rcases updateActivity_mem hd with ⟨d₀, h₀, heq⟩
  by_cases hj : d₀.trade.id = j
  · rw [if_pos (by simpa using hj)] at heq
    rw [heq]
  · rw [if_neg (by simpa using hj)] at heq
    rw [heq] at hid ⊢
    exact h d₀ h₀ hid

theorem markTradesSkipped_botSetOn_mono {acts : List ActivityDoc} {i : Nat}
    (ts : List TradeWithUser) (h : botSetOn acts i) :
    botSetOn (markTradesSkipped acts ts) i := by
  induction ts generalizing acts with
  | nil => exact h
  | cons t ts ih => exact ih (updateActivity_botSetOn_mono h t.id)

theorem markTradesSkipped_botSetOn (acts : List ActivityDoc)
    (ts : List TradeWithUser) :
    ∀ t ∈ ts, botSetOn (markTradesSkipped acts ts) t.id := by
  induction ts generalizing acts with
  | nil => intro t ht; cases ht
  | cons t₀ ts ih =>
    intro t ht
    rcases List.mem_cons.mp ht with h | h
    · subst h
      exact markTradesSkipped_botSetOn_mono ts
        (updateActivity_botSetOn_self acts t.id)
    · exact ih _ t h

theorem getReady_botSetOn_mono (now windowMs : Int) (buffer : AggBuffer)
    {acts : List ActivityDoc} {i : Nat} (h : botSetOn acts i) :
    botSetOn (getReadyAggregatedTrades now windowMs buffer acts).2.2 i := by
  induction buffer generalizing acts with
  | nil => exact h
  | cons kv rest ih =>
    by_cases hold : windowMs ≤ now - kv.2.firstTradeTime
    · by_cases hbig : TRADE_AGGREGATION_MIN_TOTAL_USD ≤ kv.2.totalUsdcSize
      · simpa [getReadyAggregatedTrades, if_pos hold, if_pos hbig] using ih h
      · simpa [getReadyAggregatedTrades, if_pos hold, if_neg hbig] using
          ih (markTradesSkipped_botSetOn_mono kv.2.trades h)
    · simpa [getReadyAggregatedTrades, if_neg hold] using ih h

/-- The remaining buffer after a window pass is exactly the groups younger
than the window, unchanged and in order. -/
theorem getReady_keep (now windowMs : Int) (buffer : AggBuffer)
    (acts : List ActivityDoc) :
    (getReadyAggregatedTrades now windowMs buffer acts).2.1 =
      buffer.filter
        (fun kv => !(decide (windowMs ≤ now - kv.2.firstTradeTime))) := by
  induction buffer generalizing acts with
  | nil => rfl
  | cons kv rest ih =>
    by_cases hold : windowMs ≤ now - kv.2.firstTradeTime
    · by_cases hbig : TRADE_AGGREGATION_MIN_TOTAL_USD ≤ kv.2.totalUsdcSize
      · simp [getReadyAggregatedTrades, if_pos hold, if_pos hbig,
          List.filter_cons, hold, ih]
      · simp [getReadyAggregatedTrades, if_pos hold, if_neg hbig,
          List.filter_cons, hold, ih]
    · simp [getReadyAggregatedTrades, if_neg hold, List.filter_cons, hold, ih]

/-- The groups a window pass emits as ready are exactly those at or past
the window whose accumulated notional meets the minimum, in order. -/
theorem getReady_ready (now windowMs : Int) (buffer : AggBuffer)
    (acts : List ActivityDoc) :
    (getReadyAggregatedTrades now windowMs buffer acts).1 =
      (buffer.filter (fun kv =>
        decide (windowMs ≤ now - kv.2.firstTradeTime) &&
        decide (TRADE_AGGREGATION_MIN_TOTAL_USD ≤ kv.2.totalUsdcSize))).map
        Prod.snd := by
  induction buffer generalizing acts with
  | nil => rfl
  | cons kv rest ih =>
    by_cases hold : windowMs ≤ now - kv.2.firstTradeTime
    · by_cases hbig : TRADE_AGGREGATION_MIN_TOTAL_USD ≤ kv.2.totalUsdcSize
      · simp [getReadyAggregatedTrades, if_pos hold, if_pos hbig,
          List.filter_cons, hold, hbig, ih]
      · simp [getReadyAggregatedTrades, if_pos hold, if_neg hbig,
          List.filter_cons, hold, hbig, ih]
    · simp [getReadyAggregatedTrades, if_neg hold, List.filter_cons, hold, ih]

/-- Constituents of an expired below-minimum group end with `bot = true`. -/
theorem getReady_skipped_botSet (now windowMs : Int) (buffer : AggBuffer)
    (acts : List ActivityDoc) :
    ∀ kv ∈ buffer, windowMs ≤ now - kv.2.firstTradeTime →
      kv.2.totalUsdcSize < TRADE_AGGREGATION_MIN_TOTAL_USD →
      ∀ t ∈ kv.2.trades,
        botSetOn (getReadyAggregatedTrades now windowMs buffer acts).2.2
          t.id := by
  induction buffer generalizing acts with
  | nil => intro kv hkv; cases hkv
  | cons kv₀ rest ih =>
    intro kv hkv holdkv hsmallkv t ht
    rcases List.mem_cons.mp hkv with hh | hh
    · subst hh
      have hnbig : ¬ TRADE_AGGREGATION_MIN_TOTAL_USD ≤ kv.2.totalUsdcSize :=
        not_le.mpr hsmallkv
      have hmark := markTradesSkipped_botSetOn acts kv.2.trades t ht
      simpa [getReadyAggregatedTrades, if_pos holdkv, if_neg hnbig] using
        getReady_botSetOn_mono now windowMs rest hmark
    · by_cases hold : windowMs ≤ now - kv₀.2.firstTradeTime
      · by_cases hbig : TRADE_AGGREGATION_MIN_TOTAL_USD ≤ kv₀.2.totalUsdcSize
        · simpa [getReadyAggregatedTrades, if_pos hold, if_pos hbig] using
            ih acts kv hh holdkv hsmallkv t ht
        · simpa [getReadyAggregatedTrades, if_pos hold, if_neg hbig] using
            ih (markTradesSkipped acts kv₀.2.trades) kv hh holdkv hsmallkv t ht
      · simpa [getReadyAggregatedTrades, if_neg hold] using
          ih acts kv hh holdkv hsmallkv t ht

/-- **C4.** In a window pass over the aggregation buffer: every group at
or past the window is removed from the buffer and is emitted as ready
exactly when its accumulated notional is at least the 1.0 USD minimum;
an expired below-minimum group has every constituent marked `bot: true`,
which is terminal — such a document no longer matches the pending query,
so it is never re-offered for execution; groups younger than the window
stay in the buffer unchanged and are not emitted. -/
theorem c4_window_gating (now windowMs : Int) (buffer : AggBuffer)
    (acts : List ActivityDoc) :
    ((getReadyAggregatedTrades now windowMs buffer acts).2.1 =
      buffer.filter
        (fun kv => !(decide (windowMs ≤ now - kv.2.firstTradeTime)))) ∧
    ((getReadyAggregatedTrades now windowMs buffer acts).1 =
      (buffer.filter (fun kv =>
        decide (windowMs ≤ now - kv.2.firstTradeTime) &&
        decide (TRADE_AGGREGATION_MIN_TOTAL_USD ≤ kv.2.totalUsdcSize))).map
        Prod.snd) ∧
    (∀ kv ∈ buffer, windowMs ≤ now - kv.2.firstTradeTime →
      kv.2.totalUsdcSize < TRADE_AGGREGATION_MIN_TOTAL_USD →
      ∀ t ∈ kv.2.trades,
        ∀ d ∈ (getReadyAggregatedTrades now windowMs buffer acts).2.2,
          d.trade.id = t.id → isPendingDoc d = false) := by
  refine ⟨getReady_keep now windowMs buffer acts,
    getReady_ready now windowMs buffer acts, ?_⟩
  intro kv hkv hold hsmall t ht d hd hid
  have hbot := getReady_skipped_botSet now windowMs buffer acts kv hkv hold
    hsmall t ht d hd hid
  simp [isPendingDoc, hbot]

/-- Witness for C4 at a concrete buffer: an expired $0.20 group is
dropped, not emitted, and its constituent's document leaves the pending
set; a young group survives untouched. -/
theorem c4_window_gating_witness :
    ((getReadyAggregatedTrades 100000 30000
        [("k1", { userAddress := "0xtrader", conditionId := "cond1",
                  asset := "asset1", side := "BUY", trades := [exAgg1],
                  totalUsdcSize := 1/5, averagePrice := 1/2,
                  firstTradeTime := 0, lastTradeTime := 0 }),
         ("k2", { userAddress := "0xtrader", conditionId := "cond2",
                  asset := "asset2", side := "BUY", trades := [exAgg2],
                  totalUsdcSize := 3/10, averagePrice := 13/25,
                  firstTradeTime := 90000, lastTradeTime := 90000 })]
        [⟨exAgg1, "TRADE", false, 0⟩]).2.1.map Prod.fst = ["k2"]) ∧
    ∀ d ∈ (getReadyAggregatedTrades 100000 30000
        [("k1", { userAddress := "0xtrader", conditionId := "cond1",
                  asset := "asset1", side := "BUY", trades := [exAgg1],
                  totalUsdcSize := 1/5, averagePrice := 1/2,
                  firstTradeTime := 0, lastTradeTime := 0 }),
         ("k2", { userAddress := "0xtrader", conditionId := "cond2",
                  asset := "asset2", side := "BUY", trades := [exAgg2],
                  totalUsdcSize := 3/10, averagePrice := 13/25,
                  firstTradeTime := 90000, lastTradeTime := 90000 })]
        [⟨exAgg1, "TRADE", false, 0⟩]).2.2,
      d.trade.id = exAgg1.id → isPendingDoc d = false := by
  have h := c4_window_gating 100000 30000
    [("k1", { userAddress := "0xtrader", conditionId := "cond1",
              asset := "asset1", side := "BUY", trades := [exAgg1],
              totalUsdcSize := 1/5, averagePrice := 1/2,
              firstTradeTime := 0, lastTradeTime := 0 }),
     ("k2", { userAddress := "0xtrader", conditionId := "cond2",
              asset := "asset2", side := "BUY", trades := [exAgg2],
              totalUsdcSize := 3/10, averagePrice := 13/25,
              firstTradeTime := 90000, lastTradeTime := 90000 })]
    [⟨exAgg1, "TRADE", false, 0⟩]
  constructor
  · rw [h.1]
    norm_num [List.filter_cons, TRADE_AGGREGATION_MIN_TOTAL_USD]
  · intro d hd hid
    exact h.2.2
      ("k1", { userAddress := "0xtrader", conditionId := "cond1",
               asset := "asset1", side := "BUY", trades := [exAgg1],
               totalUsdcSize := 1/5, averagePrice := 1/2,
               firstTradeTime := 0, lastTradeTime := 0 })
      (by simp) (by norm_num)
      (by norm_num [TRADE_AGGREGATION_MIN_TOTAL_USD])
      exAgg1 (by simp) d hd hid

/-! ## C1 — exactly-once per (trade, follower) -/

/-- The unique index keeps the key-uniqueness invariant across inserts. -/
theorem createCopyExecution_uniqueKeys {store : ExecStore} (r : ExecRecord)
    (h : uniqueKeys store) : uniqueKeys (createCopyExecution store r) := by
  unfold createCopyExecution
  split
  · exact h
  · next hany =>
    refine List.Pairwise.cons ?_ h
    intro e he heq
    exact hany (List.any_eq_true.mpr ⟨e, he, by simp [heq]⟩)

/-- Under the uniqueness invariant, at most one document matches any
key. -/
theorem uniqueKeys_countKey_le_one {store : ExecStore}
    (h : uniqueKeys store) (k : String × Nat × String) :
    (store.filter (fun r => r.key == k)).length ≤ 1 := by
  induction store with
  | nil => simp
  | cons r rest ih =>
    rcases List.pairwise_cons.mp h with ⟨hr, hrest⟩
    by_cases hk : (r.key == k) = true
    · have hempty : rest.filter (fun r' => r'.key == k) = [] := by
        refine List.filter_eq_nil_iff.mpr ?_
        intro r' hr'
        have hne := hr r' hr'
        simp only [beq_iff_eq] at hk ⊢
        rw [hk] at hne
        intro heq
        rw [heq] at hne
        exact hne rfl
      simp [List.filter_cons, hk, hempty]
    · simp only [List.filter_cons, hk, if_false]
      exact ih hrest

/-- In every branch, `executeTrade` either leaves the ledger alone or
performs exactly one guarded insert. -/
theorem executeTrade_executions_cases (clientIdx : Nat)
    (trade : TradeWithUser) (userAddress : String)
    (followerWallet : Option String) (preview : Bool) (env : FetchEnv)
    (gw : GatewayOutcome) (st : ExecState) :
    (executeTrade clientIdx trade userAddress followerWallet preview env gw
      st).executions = st.executions ∨
    ∃ r, (executeTrade clientIdx trade userAddress followerWallet preview env
      gw st).executions = createCopyExecution st.executions r := by
  cases followerWallet with
  | none =>
    left
    by_cases hv : (validateTrade trade env).isValid = false
    · simp [executeTrade, hv]
    · by_cases hp : preview = true
      · simp [executeTrade, hv, hp]
      · cases gw <;> simp [executeTrade, hv, hp]
  | some w =>
    right
    by_cases hv : (validateTrade trade env).isValid = false
    · refine ⟨⟨userAddress, trade.id, w, .failed, false⟩, ?_⟩
      simp [executeTrade, hv]
    · by_cases hp : preview = true
      · refine ⟨⟨userAddress, trade.id, w, .success, true⟩, ?_⟩
        simp [executeTrade, hv, hp]
      · cases gw with
        | ok =>
          refine ⟨⟨userAddress, trade.id, w, .success, false⟩, ?_⟩
          simp [executeTrade, hv, hp]
        | throws m =>
          refine ⟨⟨userAddress, trade.id, w, .failed, false⟩, ?_⟩
          simp [executeTrade, hv, hp]

theorem executeTrade_uniqueKeys (clientIdx : Nat) (trade : TradeWithUser)
    (userAddress : String) (followerWallet : Option String) (preview : Bool)
    (env : FetchEnv) (gw : GatewayOutcome) {st : ExecState}
    (h : uniqueKeys st.executions) :
    uniqueKeys (executeTrade clientIdx trade userAddress followerWallet
      preview env gw st).executions := by
  rcases executeTrade_executions_cases clientIdx trade userAddress
    followerWallet preview env gw st with he | ⟨r, he⟩ <;> rw [he]
  · exact h
  · exact createCopyExecution_uniqueKeys r h

theorem processImmediateTrade_uniqueKeys (trade : TradeWithUser)
    (followers : List FollowerWallet) (preview : Bool)
    (envOf : Nat → FetchEnv) (gwOf : Nat → GatewayOutcome) {st : ExecState}
    (h : uniqueKeys st.executions) :
    uniqueKeys (processImmediateTrade trade followers preview envOf gwOf
      st).executions := by
  unfold processImmediateTrade
  generalize getPendingFollowerIndices trade.userAddress trade.id followers
    st.executions = pend
  induction pend generalizing st with
  | nil => exact h
  | cons i rest ih =>
    simp only [List.foldl_cons]
    cases hget : followers.get? i with
    | none =>
      simp only [hget]
      exact ih h
    | some f =>
      simp only [hget]
      exact ih (executeTrade_uniqueKeys i trade trade.userAddress
        (some f.address) preview (envOf i) (gwOf i) h)

/-- A follower index is pending exactly when that follower has no ledger
record for the `(trader, activity)` pair (compared on lowercased
wallets). -/
theorem getPendingFollowerIndices_mem (trader : String) (activityId : Nat)
    (followers : List FollowerWallet) (store : ExecStore) (i : Nat) :
    i ∈ getPendingFollowerIndices trader activityId followers store ↔
    ∃ f, followers.get? i = some f ∧
      ∀ r ∈ recordsFor store trader activityId,
        r.followerWallet.toLower ≠ f.address.toLower := by
  unfold getPendingFollowerIndices
  simp only [List.mem_map, List.mem_filter]
  constructor
  · rintro ⟨⟨j, f⟩, ⟨hmem, hcont⟩, hj⟩
    subst hj
    have hget : followers.get? j = some f := by
      rw [List.get?_eq_getElem?]
      exact List.mk_mem_enum_iff_getElem?.mp hmem
    refine ⟨f, hget, ?_⟩
    intro r hr heq
    have hin : f.address.toLower ∈
        (recordsFor store trader activityId).map
          (fun r => r.followerWallet.toLower) :=
      List.mem_map.mpr ⟨r, hr, heq⟩
    rw [← List.elem_iff] at hin
    simp only [hin] at hcont
    exact absurd hcont (by simp)
  · rintro ⟨f, hget, hnone⟩
    refine ⟨(i, f), ⟨?_, ?_⟩, rfl⟩
    · exact List.mk_mem_enum_iff_getElem?.mpr
        (by rw [← List.get?_eq_getElem?]; exact hget)
    · simpa using hnone

/-- **C1.** Starting from a ledger satisfying the unique-index invariant,
any number of pipeline iterations of the immediate multi-wallet path over
the same trade keeps the invariant, leaves at most one ExecutionRecord per
`(source account, SourceTrade id, Follower)` key, and at every point the
orchestrator's pending set contains exactly the followers with no existing
record for that trade — so a repeated iteration never executes, let alone
records, a (trade, follower) pair twice. -/
theorem c1_exactly_once (trade : TradeWithUser)
    (followers : List FollowerWallet) (preview : Bool)
    (envOf : Nat → FetchEnv) (gwOf : Nat → GatewayOutcome) (n : Nat)
    (st : ExecState) (key : String × Nat × String)
    (h : uniqueKeys st.executions) :
    uniqueKeys
      ((processImmediateTrade trade followers preview envOf gwOf)^[n]
        st).executions ∧
    (((processImmediateTrade trade followers preview envOf gwOf)^[n]
        st).executions.filter (fun r => r.key == key)).length ≤ 1 ∧
    (∀ i, i ∈ getPendingFollowerIndices trade.userAddress trade.id followers
        ((processImmediateTrade trade followers preview envOf gwOf)^[n]
          st).executions ↔
      ∃ f, followers.get? i = some f ∧
        ∀ r ∈ recordsFor
            ((processImmediateTrade trade followers preview envOf gwOf)^[n]
              st).executions trade.userAddress trade.id,
          r.followerWallet.toLower ≠ f.address.toLower) := by
  have huniq : ∀ (s : ExecState), uniqueKeys s.executions →
      uniqueKeys
        ((processImmediateTrade trade followers preview envOf gwOf)^[n]
          s).executions := by
    induction n with
    | zero => intro s hs; exact hs
    | succ n ih =>
      intro s hs
      rw [Function.iterate_succ_apply]
      exact ih _ (processImmediateTrade_uniqueKeys trade followers preview
        envOf gwOf hs)
  refine ⟨huniq st h, uniqueKeys_countKey_le_one (huniq st h) key,
    fun i => ?_⟩
  exact getPendingFollowerIndices_mem trade.userAddress trade.id followers _ i

/-- Witness for C1: two pipeline iterations over one trade with one
follower, from an empty ledger, leave at most one record for the pair. -/
theorem c1_exactly_once_witness :
    (((processImmediateTrade exTrade50 [⟨"0xF1"⟩] true
        (fun _ => exEnvBal10) (fun _ => .ok))^[2]
        ⟨[⟨exTrade50, "TRADE", false, 0⟩], [], [], []⟩).executions.filter
      (fun r => r.key == ("0xtrader", 1, "0xF1"))).length ≤ 1 := by
  exact (c1_exactly_once exTrade50 [⟨"0xF1"⟩] true (fun _ => exEnvBal10)
    (fun _ => .ok) 2 ⟨[⟨exTrade50, "TRADE", false, 0⟩], [], [], []⟩
    ("0xtrader", 1, "0xF1") (by simp [uniqueKeys])).2.1

end CopyBot
